import Mathlib

/-!
Shallow embedding of the Civil-Finloan Express application (src/app.js).

The application is routing glue over a MongoDB document store accessed through
Mongoose.  We model the store as three in-memory lists (the `Service`,
`Request` and `Member` collections, in insertion order) and each HTTP handler
as a pure function from the store and the request data to a response paired
with the post-request store.  JS numbers are modelled as `ℚ` (exact
arithmetic; the spec calls them decimals) and mobile numbers as `Nat`.
Request-body fields that a handler tests for JS falsiness are modelled as
`Option` values: `none` is an absent field and `some 0` is the falsy number 0;
any other number is truthy (note that in JS `!x` is `false` for negative `x`).

Mongoose collection operations used by the handlers:
  * `Model.find()`            — all documents, insertion order;
  * `Model.findOne(f)`        — first document matching filter `f`;
  * `Model.findOneAndUpdate(f, u, \x7bnew: true\x7d)` — `u` is a plain object
    with no atomic operators, which Mongoose casts to a `$set` of exactly the
    fields present in `u`: the first matching document has those fields
    overwritten and every field absent from `u` left untouched, and the
    post-update document is returned (this is Mongoose's documented cast for
    non-operator updates; full replacement would be `findOneAndReplace`, which
    the source never calls — indeed `PUT /updatepassword` passes only
    `\x7bcreatepassword\x7d` and the spec states the other member fields
    survive, which forces the `$set` reading);
  * `Model.findOneAndDelete(f)` — removes the first matching document.
-/

/-- A loan product: one document of the `Service` collection
(src/app.js lines 20-28).  The spec calls `imgUrl` "imageRef". -/
structure Service where
  type : String
  description : String
  interestRate : ℚ
  maxAmount : ℚ
  tenure : ℚ
  imgUrl : String
deriving DecidableEq

/-- A loan enquiry: one document of the `Request` collection
(src/app.js lines 31-39).  The spec calls `amt` "amount" and `msg` "message". -/
structure LoanRequest where
  mobile : Nat
  email : String
  amt : ℚ
  type : String
  msg : String
  code : String
deriving DecidableEq

/-- A registered member: one document of the `Member` collection
(src/app.js lines 42-48). -/
structure Member where
  mobile : Nat
  email : String
  occupation : String
  createpassword : String
deriving DecidableEq

/-- The document store: the three collections, each in insertion order. -/
structure Store where
  services : List Service
  requests : List LoanRequest
  members : List Member
deriving DecidableEq

/-- `Service.findOne(\x7btype\x7d)`: first product whose `type` equals `t`
(case-sensitive string equality). -/
def findOneService (s : Store) (t : String) : Option Service :=
  s.services.find? (fun sv => sv.type == t)

/-- `Request.findOne(\x7bmobile\x7d)`: first enquiry whose `mobile` equals `m`. -/
def findOneRequest (s : Store) (m : Nat) : Option LoanRequest :=
  s.requests.find? (fun r => r.mobile == m)

/-- `findOneAndUpdate` on a list: update the first element satisfying `p` with
`f`, returning the post-update element (Mongoose's `new: true`) and the
resulting list; `none` when nothing matches. -/
def updateFirst {α : Type} (p : α → Bool) (f : α → α) : List α → Option (α × List α)
  | [] => none
  | x :: xs =>
    if p x then some (f x, f x :: xs)
    else
      match updateFirst p f xs with
      | none => none
      | some (y, ys) => some (y, x :: ys)

/-- `findOneAndDelete` on a list: remove the first element satisfying `p`,
returning the removed element and the resulting list; `none` when nothing
matches. -/
def deleteFirst {α : Type} (p : α → Bool) : List α → Option (α × List α)
  | [] => none
  | x :: xs =>
    if p x then some (x, xs)
    else
      match deleteFirst p xs with
      | none => none
      | some (y, ys) => some (y, x :: ys)

/-- Response of `GET /allservices` (src/app.js lines 82-98): either 404
`No loan services available` or the list of brief summaries. -/
structure BriefService where
  type : String
  description : String
  imgUrl : String
deriving DecidableEq

/-- The projection applied to each stored product by `GET /allservices`:
exactly `type`, `description` and `imgUrl`. -/
def briefOf (sv : Service) : BriefService :=
  { type := sv.type, description := sv.description, imgUrl := sv.imgUrl }

inductive ListResp where
  | notFound
  | ok (services : List BriefService)
deriving DecidableEq

/-- `listProducts` — `GET /allservices` (src/app.js lines 82-98): 404 when the
catalog is empty, otherwise the brief summaries of all stored products. -/
def listProducts (s : Store) : ListResp :=
  if s.services.length = 0 then ListResp.notFound
  else ListResp.ok (s.services.map briefOf)

inductive GetResp where
  | notFound
  | ok (service : Service)
deriving DecidableEq

/-- `getProduct` — `GET /service/:type` (src/app.js lines 101-111): the full
product matching `t`, or 404. -/
def getProduct (s : Store) (t : String) : GetResp :=
  match findOneService s t with
  | none => GetResp.notFound
  | some sv => GetResp.ok sv

/-- Body of `POST /service/:type/calculate`: `\x7bamt, tenure\x7d`, each
possibly absent. -/
structure CalcBody where
  amt : Option ℚ
  tenure : Option ℚ
deriving DecidableEq

/-- The 200 payload of the calculate route
`\x7btotalAmount, interest, loanAmount, tenure\x7d`. -/
structure CalcResult where
  totalAmount : ℚ
  interest : ℚ
  loanAmount : ℚ
  tenure : ℚ
deriving DecidableEq

inductive CalcResp where
  | notFound
  | invalidInput
  | ok (r : CalcResult)
deriving DecidableEq

/-- `calculateInterest` — `POST /service/:type/calculate`
(src/app.js lines 136-152).  Looks up the product by the `:type` path
parameter (404 when absent), then rejects a falsy `amt` or `tenure`
(`if (!amt || !tenure)` — absent or zero; 400), and otherwise returns the
simple interest `amt * interestRate * tenure / 100`.  No write occurs on any
path: the second component is always the incoming store. -/
def calculateInterest (s : Store) (t : String) (b : CalcBody) : CalcResp × Store :=
  match findOneService s t with
  | none => (CalcResp.notFound, s)
  | some sv =>
    match b.amt, b.tenure with
    | some a, some n =>
      if a = 0 ∨ n = 0 then (CalcResp.invalidInput, s)
      else
        (CalcResp.ok
          { totalAmount := a + a * sv.interestRate * n / 100
            interest := a * sv.interestRate * n / 100
            loanAmount := a
            tenure := n }, s)
    | _, _ => (CalcResp.invalidInput, s)

/-- Body of `POST /service/:type/remittance`: `\x7bamt, mobile\x7d`, each
possibly absent. -/
structure RemitBody where
  amt : Option ℚ
  mobile : Option Nat
deriving DecidableEq

inductive RemitResp where
  | invalidInput
  | notFound
  | ok (message : String)
deriving DecidableEq

/-- Whether a remittance response is the 200 success. -/
def RemitResp.success : RemitResp → Bool
  | RemitResp.ok _ => true
  | _ => false

/-- `requestRemittance` — `POST /service/:type/remittance`
(src/app.js lines 155-169).  Rejects a falsy `amt` or `mobile`
(`if (!amt || !mobile)` — absent or zero; 400); 404 when no enquiry exists for
the mobile; otherwise a confirmation message.  The `:type` path parameter `t`
is never read by the handler, and no write occurs on any path. -/
def requestRemittance (s : Store) (t : String) (b : RemitBody) : RemitResp × Store :=
  match b.amt, b.mobile with
  | some a, some m =>
    if a = 0 ∨ m = 0 then (RemitResp.invalidInput, s)
    else
      match findOneRequest s m with
      | none => (RemitResp.notFound, s)
      | some _ => (RemitResp.ok ("Remittance of " ++ toString a ++ " for loan approved successfully"), s)
  | _, _ => (RemitResp.invalidInput, s)

/-- Body of `PUT /updaterequest`: the handler filters on `req.body.mobile` and
passes the whole body as the update, so `mobile` is always a set field of the
`$set`; the remaining enquiry fields may each be present or absent (a body
with no `mobile` key is outside this model — the filter would then be on an
undefined value). -/
structure RequestPatch where
  mobile : Nat
  email : Option String
  amt : Option ℚ
  type : Option String
  msg : Option String
  code : Option String
deriving DecidableEq

/-- The `$set` Mongoose performs for `findOneAndUpdate(\x7bmobile\x7d, body)`:
every field present in the body overwrites the stored field, every absent
field keeps its stored value. -/
def applyPatch (b : RequestPatch) (r : LoanRequest) : LoanRequest :=
  { mobile := b.mobile
    email := b.email.getD r.email
    amt := b.amt.getD r.amt
    type := b.type.getD r.type
    msg := b.msg.getD r.msg
    code := b.code.getD r.code }

inductive UpdateReqResp where
  | notFound
  | ok (updatedRequest : LoanRequest)
deriving DecidableEq

/-- `updateEnquiry` — `PUT /updaterequest` (src/app.js lines 172-187):
`Request.findOneAndUpdate(\x7bmobile: req.body.mobile\x7d, req.body,
\x7bnew: true\x7d)`; 404 when no enquiry matches, otherwise the post-update
record is returned. -/
def updateEnquiry (s : Store) (b : RequestPatch) : UpdateReqResp × Store :=
  match updateFirst (fun r => r.mobile == b.mobile) (applyPatch b) s.requests with
  | none => (UpdateReqResp.notFound, s)
  | some (r, rs) => (UpdateReqResp.ok r, { s with requests := rs })

inductive SimpleResp where
  | notFound
  | ok
deriving DecidableEq

/-- `updatePassword` — `PUT /updatepassword` (src/app.js lines 190-205):
`Member.findOneAndUpdate(\x7bmobile\x7d, \x7bcreatepassword: password\x7d,
\x7bnew: true\x7d)`: the `$set` touches only `createpassword`, stored verbatim. -/
def updatePassword (s : Store) (m : Nat) (pw : String) : SimpleResp × Store :=
  match updateFirst (fun mem => mem.mobile == m)
      (fun mem => { mem with createpassword := pw }) s.members with
  | none => (SimpleResp.notFound, s)
  | some (_, ms) => (SimpleResp.ok, { s with members := ms })

/-- `deleteEnquiry` — `DELETE /deleterequest` (src/app.js lines 208-219):
`Request.findOneAndDelete(\x7bmobile\x7d)`; 404 when no enquiry matches. -/
def deleteEnquiry (s : Store) (m : Nat) : SimpleResp × Store :=
  match deleteFirst (fun r => r.mobile == m) s.requests with
  | none => (SimpleResp.notFound, s)
  | some (_, rs) => (SimpleResp.ok, { s with requests := rs })

/-- `cancelMembership` — `DELETE /cancelmember` (src/app.js lines 222-233):
`Member.findOneAndDelete(\x7bmobile\x7d)`; 404 when no member matches. -/
def cancelMembership (s : Store) (m : Nat) : SimpleResp × Store :=
  match deleteFirst (fun mem => mem.mobile == m) s.members with
  | none => (SimpleResp.notFound, s)
  | some (_, ms) => (SimpleResp.ok, { s with members := ms })

/-- A concrete catalog entry used by the witnesses: the "personal" product of
the spec's worked example, with `interestRate = 10`. -/
def personalLoan : Service :=
  { type := "personal", description := "Personal loan", interestRate := 10
    maxAmount := 500000, tenure := 60, imgUrl := "img/personal.png" }

/-- A concrete stored enquiry for mobile 7 used by the witnesses. -/
def demoEnquiry : LoanRequest :=
  { mobile := 7, email := "a@b.com", amt := 1000, type := "personal"
    msg := "hello", code := "Z" }

/-- A concrete stored member for mobile 7 used by the witnesses. -/
def demoMember : Member :=
  { mobile := 7, email := "a@b.com", occupation := "engineer", createpassword := "pw123" }

/-- A concrete store: one product, one enquiry, one member. -/
def demoStore : Store :=
  { services := [personalLoan], requests := [demoEnquiry], members := [demoMember] }

/-- The empty store (empty catalog). -/
def emptyStore : Store := { services := [], requests := [], members := [] }

/-! ## Helper lemmas about the first-match store operations -/

theorem updateFirst_eq_none {α : Type} (p : α → Bool) (f : α → α) (l : List α)
    (h : ∀ x ∈ l, p x = false) : updateFirst p f l = none := by
  induction l with
  | nil => rfl
  | cons x xs ih =>
    have hx : p x = false := h x (List.mem_cons_self x xs)
    have hxs := ih (fun y hy => h y (List.mem_cons_of_mem x hy))
    simp [updateFirst, hx, hxs]

theorem deleteFirst_eq_none {α : Type} (p : α → Bool) (l : List α)
    (h : ∀ x ∈ l, p x = false) : deleteFirst p l = none := by
  induction l with
  | nil => rfl
  | cons x xs ih =>
    have hx : p x = false := h x (List.mem_cons_self x xs)
    have hxs := ih (fun y hy => h y (List.mem_cons_of_mem x hy))
    simp [deleteFirst, hx, hxs]

theorem updateFirst_first_match {α : Type} (p : α → Bool) (f : α → α)
    (pre post : List α) (r : α)
    (hpre : ∀ x ∈ pre, p x = false) (hr : p r = true) :
    updateFirst p f (pre ++ r :: post) = some (f r, pre ++ f r :: post) := by
  induction pre with
  | nil => simp [updateFirst, hr]
  | cons x xs ih =>
    have hx : p x = false := hpre x (List.mem_cons_self x xs)
    have hxs := ih (fun y hy => hpre y (List.mem_cons_of_mem x hy))
    simp [updateFirst, hx, hxs]

theorem deleteFirst_first_match {α : Type} (p : α → Bool)
    (pre post : List α) (r : α)
    (hpre : ∀ x ∈ pre, p x = false) (hr : p r = true) :
    deleteFirst p (pre ++ r :: post) = some (r, pre ++ post) := by
  induction pre with
  | nil => simp [deleteFirst, hr]
  | cons x xs ih =>
    have hx : p x = false := hpre x (List.mem_cons_self x xs)
    have hxs := ih (fun y hy => hpre y (List.mem_cons_of_mem x hy))
    simp [deleteFirst, hx, hxs]

theorem updateFirst_shape {α : Type} (p : α → Bool) (f : α → α) :
    ∀ (l : List α) (y : α) (l2 : List α),
      updateFirst p f l = some (y, l2) → ∃ x, p x = true ∧ y = f x := by
  intro l
  induction l with
  | nil => intro y l2 h; simp [updateFirst] at h
  | cons x xs ih =>
    intro y l2 h
    by_cases hx : p x = true
    · refine ⟨x, hx, ?_⟩
      simp [updateFirst, hx] at h
      exact h.1.symm
    · have hx2 : p x = false := by
        cases hpx : p x with
        | false => rfl
        | true => exact absurd hpx hx
      rw [updateFirst, hx2] at h
      simp only [Bool.false_eq_true, if_false] at h
      cases hrec : updateFirst p f xs with
      | none => rw [hrec] at h; exact absurd h (by simp)
      | some yl =>
        rw [hrec] at h
        obtain ⟨y2, l3⟩ := yl
        have := ih y2 l3 hrec
        simp at h
        obtain ⟨hy, _⟩ := h
        exact hy ▸ this

theorem find?_eq_none_of_forall {α : Type} (p : α → Bool) (l : List α)
    (h : ∀ x ∈ l, p x = false) : l.find? p = none := by
  rw [List.find?_eq_none]
  intro x hx
  simp [h x hx]

/-- `x.mobile ≠ m` rephrased as the predicate the store operations test. -/
theorem req_beq_false (m : Nat) (x : LoanRequest) (h : x.mobile ≠ m) :
    (x.mobile == m) = false :=
  beq_eq_false_iff_ne.mpr h

/-- `x.mobile ≠ m` rephrased as the predicate the store operations test. -/
theorem mem_beq_false (m : Nat) (x : Member) (h : x.mobile ≠ m) :
    (x.mobile == m) = false :=
  beq_eq_false_iff_ne.mpr h

/-! ## Claims -/

/-- C1: for every stored product and every request with positive amount `a`
and positive tenure `n`, `calculateInterest` returns
`interest = a * interestRate * n / 100`, `totalAmount = a + interest`,
`loanAmount = a` and `tenure = n`; in particular with `a = 1000`, `n = 12`
and `interestRate = 10` it returns interest 1200 and total 2200. -/
theorem claim_C1_calculate_formula :
    (∀ (s : Store) (t : String) (b : CalcBody) (sv : Service) (a n : ℚ),
      findOneService s t = some sv → b.amt = some a → b.tenure = some n →
      0 < a → 0 < n →
      (calculateInterest s t b).1 =
        CalcResp.ok
          { totalAmount := a + a * sv.interestRate * n / 100
            interest := a * sv.interestRate * n / 100
            loanAmount := a
            tenure := n }) ∧
    (calculateInterest demoStore "personal" { amt := some 1000, tenure := some 12 }).1 =
      CalcResp.ok { totalAmount := 2200, interest := 1200, loanAmount := 1000, tenure := 12 } := by
  have hgen : ∀ (s : Store) (t : String) (b : CalcBody) (sv : Service) (a n : ℚ),
      findOneService s t = some sv → b.amt = some a → b.tenure = some n →
      0 < a → 0 < n →
      (calculateInterest s t b).1 =
        CalcResp.ok
          { totalAmount := a + a * sv.interestRate * n / 100
            interest := a * sv.interestRate * n / 100
            loanAmount := a
            tenure := n } := by
    intro s t b sv a n hs ha hn hapos hnpos
    have ha0 : ¬a = 0 := ne_of_gt hapos
    have hn0 : ¬n = 0 := ne_of_gt hnpos
    simp [calculateInterest, hs, ha, hn, ha0, hn0]
  refine ⟨hgen, ?_⟩
  rw [hgen demoStore "personal" { amt := some 1000, tenure := some 12 } personalLoan 1000 12
    (by simp [findOneService, demoStore, personalLoan]) rfl rfl (by norm_num) (by norm_num)]
  norm_num [personalLoan]

/-- Witness for C1 at the store holding the spec's worked example. -/
theorem claim_C1_witness :
    findOneService demoStore "personal" = some personalLoan ∧
    (0 : ℚ) < 1000 ∧ (0 : ℚ) < 12 ∧
    (calculateInterest demoStore "personal" { amt := some 1000, tenure := some 12 }).1 =
      CalcResp.ok
        { totalAmount := 1000 + 1000 * personalLoan.interestRate * 12 / 100
          interest := 1000 * personalLoan.interestRate * 12 / 100
          loanAmount := 1000
          tenure := 12 } :=
  ⟨by simp [findOneService, demoStore, personalLoan], by norm_num, by norm_num,
    claim_C1_calculate_formula.1 demoStore "personal"
      { amt := some 1000, tenure := some 12 } personalLoan 1000 12
      (by simp [findOneService, demoStore, personalLoan]) rfl rfl
      (by norm_num) (by norm_num)⟩

/-- C2 counterexample: a present *negative* amount is truthy in JS
(`!(-1000)` is `false`), so `calculateInterest` does not reject it with
InvalidInput — it returns a success result with negative interest, refuting
"missing or non-positive (including … negative values) fails". -/
theorem claim_C2_counterexample :
    findOneService demoStore "personal" = some personalLoan ∧
    (calculateInterest demoStore "personal" { amt := some (-1000), tenure := some 12 }).1 ≠
      CalcResp.invalidInput ∧
    (calculateInterest demoStore "personal" { amt := some (-1000), tenure := some 12 }).1 =
      CalcResp.ok { totalAmount := -2200, interest := -1200, loanAmount := -1000, tenure := 12 } := by
  have hfind : findOneService demoStore "personal" = some personalLoan := by
    simp [findOneService, demoStore, personalLoan]
  have hok : (calculateInterest demoStore "personal" { amt := some (-1000), tenure := some 12 }).1 =
      CalcResp.ok { totalAmount := -2200, interest := -1200, loanAmount := -1000, tenure := 12 } := by
    norm_num [calculateInterest, hfind, personalLoan]
  refine ⟨hfind, ?_, hok⟩
  rw [hok]
  exact fun hc => CalcResp.noConfusion hc

/-- C2 (amended): when the loan type matches a stored product, a missing or
*zero* amount or tenure (the JS-falsy number values) makes `calculateInterest`
fail with InvalidInput; negative values are not rejected. -/
theorem claim_C2_calculate_rejects_falsy (s : Store) (t : String) (b : CalcBody)
    (sv : Service) (hs : findOneService s t = some sv)
    (hb : b.amt = none ∨ b.amt = some 0 ∨ b.tenure = none ∨ b.tenure = some 0) :
    (calculateInterest s t b).1 = CalcResp.invalidInput := by
  rcases hba : b.amt with _ | a
  · rcases hbt : b.tenure with _ | n <;> simp [calculateInterest, hs, hba, hbt]
  · rcases hbt : b.tenure with _ | n
    · simp [calculateInterest, hs, hba, hbt]
    · have hzero : a = 0 ∨ n = 0 := by
        rcases hb with h | h | h | h <;> simp_all
      simp [calculateInterest, hs, hba, hbt, hzero]

/-- Witness for C2 (amended): amount 0 with the product present. -/
theorem claim_C2_witness :
    findOneService demoStore "personal" = some personalLoan ∧
    (calculateInterest demoStore "personal" { amt := some 0, tenure := some 12 }).1 =
      CalcResp.invalidInput :=
  ⟨by simp [findOneService, demoStore, personalLoan],
    claim_C2_calculate_rejects_falsy demoStore "personal"
      { amt := some 0, tenure := some 12 } personalLoan
      (by simp [findOneService, demoStore, personalLoan]) (Or.inr (Or.inl rfl))⟩

/-- C5: `calculateInterest` and `requestRemittance` leave the document store
unchanged on every execution path, success and failure alike: neither handler
ever calls a write operation. -/
theorem claim_C5_no_store_writes :
    ∀ (s : Store) (t : String) (b : CalcBody) (br : RemitBody),
      (calculateInterest s t b).2 = s ∧ (requestRemittance s t br).2 = s := by
  intro s t b br
  constructor
  · show (calculateInterest s t b).2 = s
    rw [calculateInterest]
    rcases findOneService s t with _ | sv
    · rfl
    · rcases b.amt with _ | a
      · rfl
      · rcases b.tenure with _ | n
        · rfl
        · dsimp only
          split
          · rfl
          · rfl
  · show (requestRemittance s t br).2 = s
    rw [requestRemittance]
    rcases br.amt with _ | a
    · rfl
    · rcases br.mobile with _ | m
      · rfl
      · dsimp only
        split
        · rfl
        · rcases findOneRequest s m with _ | r
          · rfl
          · rfl

/-- C9: the remittance outcome never depends on the `:type` path parameter —
the handler never reads it, so two requests with identical bodies against the
same store but different path types get identical responses (and stores). -/
theorem claim_C9_remittance_ignores_type :
    ∀ (s : Store) (t1 t2 : String) (b : RemitBody),
      requestRemittance s t1 b = requestRemittance s t2 b :=
  fun _ _ _ _ => rfl

/-- C6: `listProducts` returns for every stored product exactly the
`type`/`description`/`imgUrl` projection (`briefOf`) and fails with NotFound
on an empty catalog; `getProduct` fails with NotFound when no stored product
has the requested type. -/
theorem claim_C6_catalog_views :
    (∀ s : Store, s.services = [] → listProducts s = ListResp.notFound) ∧
    (∀ s : Store, s.services ≠ [] →
      listProducts s = ListResp.ok (s.services.map briefOf)) ∧
    (∀ (s : Store) (t : String), (∀ sv ∈ s.services, sv.type ≠ t) →
      getProduct s t = GetResp.notFound) := by
  refine ⟨?_, ?_, ?_⟩
  · intro s h
    simp [listProducts, h]
  · intro s h
    have hlen : ¬s.services.length = 0 := by
      simpa [List.length_eq_zero] using h
    simp [listProducts, hlen]
  · intro s t h
    have hfind : findOneService s t = none := by
      rw [findOneService, List.find?_eq_none]
      intro sv hsv
      simp [h sv hsv]
    simp [getProduct, hfind]

/-- Witness for C6: the empty catalog and a type no stored product has. -/
theorem claim_C6_witness :
    listProducts emptyStore = ListResp.notFound ∧
    getProduct demoStore "gold" = GetResp.notFound :=
  ⟨claim_C6_catalog_views.1 emptyStore rfl,
   claim_C6_catalog_views.2.2 demoStore "gold"
     (by intro sv hsv; simp [demoStore, personalLoan] at hsv; simp [hsv, personalLoan])⟩

/-- A patch that updates only the email of the enquiry with mobile 7, leaving
`amt`, `type`, `msg` and `code` absent. -/
def c3Patch : RequestPatch :=
  { mobile := 7, email := some "new@x.y", amt := none, type := none
    msg := none, code := none }

/-- C3 counterexample: updating with a body that omits `amt`, `msg` and
`code` leaves those stored values (`1000`, `"hello"`, `"Z"`) in place —
Mongoose casts a plain update object to a `$set`, so fields absent from the
body DO survive, refuting "fields absent from f do not survive the update". -/
theorem claim_C3_counterexample :
    c3Patch.amt = none ∧ c3Patch.msg = none ∧ c3Patch.code = none ∧
    (updateEnquiry demoStore c3Patch).1 =
      UpdateReqResp.ok
        { mobile := 7, email := "new@x.y", amt := 1000, type := "personal"
          msg := "hello", code := "Z" } := by
  refine ⟨rfl, rfl, rfl, ?_⟩
  norm_num [updateEnquiry, updateFirst, applyPatch, demoStore, demoEnquiry, c3Patch]

/-- C3 (amended): `updateEnquiry(m, f)` merges `f` into the first matched
enquiry — fields present in `f` overwrite, fields absent from `f` survive
unchanged — fails with NotFound when no enquiry matches `m`, and on success
returns the post-update record. -/
theorem claim_C3_update_merges :
    (∀ (s : Store) (b : RequestPatch), (∀ r ∈ s.requests, r.mobile ≠ b.mobile) →
      updateEnquiry s b = (UpdateReqResp.notFound, s)) ∧
    (∀ (s : Store) (pre post : List LoanRequest) (r : LoanRequest) (b : RequestPatch),
      s.requests = pre ++ r :: post → (∀ x ∈ pre, x.mobile ≠ b.mobile) →
      r.mobile = b.mobile →
      updateEnquiry s b =
        (UpdateReqResp.ok (applyPatch b r),
          { s with requests := pre ++ applyPatch b r :: post })) := by
  constructor
  · intro s b h
    have hnone : updateFirst (fun r => r.mobile == b.mobile) (applyPatch b) s.requests = none :=
      updateFirst_eq_none _ _ _ (fun x hx => req_beq_false _ x (h x hx))
    simp [updateEnquiry, hnone]
  · intro s pre post r b hs hpre hr
    have hupd : updateFirst (fun x => x.mobile == b.mobile) (applyPatch b) (pre ++ r :: post) =
        some (applyPatch b r, pre ++ applyPatch b r :: post) :=
      updateFirst_first_match _ _ _ _ _ (fun x hx => req_beq_false _ x (hpre x hx))
        (by simp [hr])
    simp [updateEnquiry, hs, hupd]

/-- Witness for C3 (amended) at the one-enquiry store. -/
theorem claim_C3_witness :
    demoStore.requests = [] ++ demoEnquiry :: [] ∧ demoEnquiry.mobile = c3Patch.mobile ∧
    updateEnquiry demoStore c3Patch =
      (UpdateReqResp.ok (applyPatch c3Patch demoEnquiry),
        { demoStore with requests := [] ++ applyPatch c3Patch demoEnquiry :: [] }) :=
  ⟨rfl, rfl,
    claim_C3_update_merges.2 demoStore [] [] demoEnquiry c3Patch rfl
      (by intro x hx; exact absurd hx (List.not_mem_nil x)) rfl⟩

/-- C7: each of the four mobile-keyed mutators fails with NotFound (store
untouched) when no record matches, and otherwise affects exactly the first
matching record, leaving every other record — duplicates included — in place;
in particular a second `deleteEnquiry` on a mobile whose only matching enquiry
was just deleted returns NotFound. -/
theorem claim_C7_mutators_first_match :
    (∀ (s : Store) (b : RequestPatch), (∀ r ∈ s.requests, r.mobile ≠ b.mobile) →
      updateEnquiry s b = (UpdateReqResp.notFound, s)) ∧
    (∀ (s : Store) (m : Nat), (∀ r ∈ s.requests, r.mobile ≠ m) →
      deleteEnquiry s m = (SimpleResp.notFound, s)) ∧
    (∀ (s : Store) (m : Nat) (pw : String), (∀ x ∈ s.members, x.mobile ≠ m) →
      updatePassword s m pw = (SimpleResp.notFound, s)) ∧
    (∀ (s : Store) (m : Nat), (∀ x ∈ s.members, x.mobile ≠ m) →
      cancelMembership s m = (SimpleResp.notFound, s)) ∧
    (∀ (s : Store) (pre post : List LoanRequest) (r : LoanRequest) (b : RequestPatch),
      s.requests = pre ++ r :: post → (∀ x ∈ pre, x.mobile ≠ b.mobile) →
      r.mobile = b.mobile →
      updateEnquiry s b =
        (UpdateReqResp.ok (applyPatch b r),
          { s with requests := pre ++ applyPatch b r :: post })) ∧
    (∀ (s : Store) (pre post : List LoanRequest) (r : LoanRequest) (m : Nat),
      s.requests = pre ++ r :: post → (∀ x ∈ pre, x.mobile ≠ m) → r.mobile = m →
      deleteEnquiry s m = (SimpleResp.ok, { s with requests := pre ++ post })) ∧
    (∀ (s : Store) (pre post : List Member) (x : Member) (m : Nat) (pw : String),
      s.members = pre ++ x :: post → (∀ y ∈ pre, y.mobile ≠ m) → x.mobile = m →
      updatePassword s m pw =
        (SimpleResp.ok,
          { s with members := pre ++ { x with createpassword := pw } :: post })) ∧
    (∀ (s : Store) (pre post : List Member) (x : Member) (m : Nat),
      s.members = pre ++ x :: post → (∀ y ∈ pre, y.mobile ≠ m) → x.mobile = m →
      cancelMembership s m = (SimpleResp.ok, { s with members := pre ++ post })) ∧
    (∀ (s : Store) (pre post : List LoanRequest) (r : LoanRequest) (m : Nat),
      s.requests = pre ++ r :: post → (∀ x ∈ pre, x.mobile ≠ m) → r.mobile = m →
      (∀ x ∈ post, x.mobile ≠ m) →
      (deleteEnquiry (deleteEnquiry s m).2 m).1 = SimpleResp.notFound) := by
  have hdel : ∀ (s : Store) (pre post : List LoanRequest) (r : LoanRequest) (m : Nat),
      s.requests = pre ++ r :: post → (∀ x ∈ pre, x.mobile ≠ m) → r.mobile = m →
      deleteEnquiry s m = (SimpleResp.ok, { s with requests := pre ++ post }) := by
    intro s pre post r m hs hpre hr
    have h1 : deleteFirst (fun x => x.mobile == m) (pre ++ r :: post) =
        some (r, pre ++ post) :=
      deleteFirst_first_match _ _ _ _ (fun x hx => req_beq_false _ x (hpre x hx))
        (by simp [hr])
    simp [deleteEnquiry, hs, h1]
  refine ⟨?_, ?_, ?_, ?_, ?_, hdel, ?_, ?_, ?_⟩
  · intro s b h
    have h1 : updateFirst (fun r => r.mobile == b.mobile) (applyPatch b) s.requests = none :=
      updateFirst_eq_none _ _ _ (fun x hx => req_beq_false _ x (h x hx))
    simp [updateEnquiry, h1]
  · intro s m h
    have h1 : deleteFirst (fun r => r.mobile == m) s.requests = none :=
      deleteFirst_eq_none _ _ (fun x hx => req_beq_false _ x (h x hx))
    simp [deleteEnquiry, h1]
  · intro s m pw h
    have h1 : updateFirst (fun x => x.mobile == m)
        (fun x => { x with createpassword := pw }) s.members = none :=
      updateFirst_eq_none _ _ _ (fun x hx => mem_beq_false _ x (h x hx))
    simp [updatePassword, h1]
  · intro s m h
    have h1 : deleteFirst (fun x => x.mobile == m) s.members = none :=
      deleteFirst_eq_none _ _ (fun x hx => mem_beq_false _ x (h x hx))
    simp [cancelMembership, h1]
  · intro s pre post r b hs hpre hr
    have h1 : updateFirst (fun x => x.mobile == b.mobile) (applyPatch b)
        (pre ++ r :: post) = some (applyPatch b r, pre ++ applyPatch b r :: post) :=
      updateFirst_first_match _ _ _ _ _ (fun x hx => req_beq_false _ x (hpre x hx))
        (by simp [hr])
    simp [updateEnquiry, hs, h1]
  · intro s pre post x m pw hs hpre hx
    have h1 : updateFirst (fun y => y.mobile == m) (fun y => { y with createpassword := pw })
        (pre ++ x :: post) =
        some ({ x with createpassword := pw }, pre ++ { x with createpassword := pw } :: post) :=
      updateFirst_first_match _ _ _ _ _ (fun y hy => mem_beq_false _ y (hpre y hy))
        (by simp [hx])
    simp [updatePassword, hs, h1]
  · intro s pre post x m hs hpre hx
    have h1 : deleteFirst (fun y => y.mobile == m) (pre ++ x :: post) =
        some (x, pre ++ post) :=
      deleteFirst_first_match _ _ _ _ (fun y hy => mem_beq_false _ y (hpre y hy))
        (by simp [hx])
    simp [cancelMembership, hs, h1]
  · intro s pre post r m hs hpre hr hpost
    rw [hdel s pre post r m hs hpre hr]
    have h2 : deleteFirst (fun x => x.mobile == m) (pre ++ post) = none :=
      deleteFirst_eq_none _ _ (by
        intro x hx
        rcases List.mem_append.mp hx with hx1 | hx2
        · exact req_beq_false _ x (hpre x hx1)
        · exact req_beq_false _ x (hpost x hx2))
    simp [deleteEnquiry, h2]

/-- Witness for C7: deleting the single enquiry for mobile 7 succeeds and a
second delete returns NotFound. -/
theorem claim_C7_witness :
    deleteEnquiry demoStore 7 = (SimpleResp.ok, { demoStore with requests := [] ++ [] }) ∧
    (deleteEnquiry (deleteEnquiry demoStore 7).2 7).1 = SimpleResp.notFound :=
  ⟨claim_C7_mutators_first_match.2.2.2.2.2.1 demoStore [] [] demoEnquiry 7 rfl
      (by intro x hx; exact absurd hx (List.not_mem_nil x)) rfl,
   claim_C7_mutators_first_match.2.2.2.2.2.2.2.2 demoStore [] [] demoEnquiry 7 rfl
      (by intro x hx; exact absurd hx (List.not_mem_nil x)) rfl
      (by intro x hx; exact absurd hx (List.not_mem_nil x))⟩

/-- C8: `updatePassword` overwrites only the `createpassword` field of the
first matching member, storing the supplied string verbatim and leaving
`mobile`, `email` and `occupation` unchanged; it fails with NotFound when no
member matches. -/
theorem claim_C8_password_field_only :
    (∀ (s : Store) (m : Nat) (pw : String), (∀ x ∈ s.members, x.mobile ≠ m) →
      updatePassword s m pw = (SimpleResp.notFound, s)) ∧
    (∀ (s : Store) (pre post : List Member) (x : Member) (m : Nat) (pw : String),
      s.members = pre ++ x :: post → (∀ y ∈ pre, y.mobile ≠ m) → x.mobile = m →
      updatePassword s m pw =
        (SimpleResp.ok,
          { s with members :=
              pre ++ { mobile := x.mobile, email := x.email,
                       occupation := x.occupation, createpassword := pw } :: post })) := by
  constructor
  · intro s m pw h
    have h1 : updateFirst (fun x => x.mobile == m)
        (fun x => { x with createpassword := pw }) s.members = none :=
      updateFirst_eq_none _ _ _ (fun x hx => mem_beq_false _ x (h x hx))
    simp [updatePassword, h1]
  · intro s pre post x m pw hs hpre hx
    have h1 : updateFirst (fun y => y.mobile == m) (fun y => { y with createpassword := pw })
        (pre ++ x :: post) =
        some ({ x with createpassword := pw }, pre ++ { x with createpassword := pw } :: post) :=
      updateFirst_first_match _ _ _ _ _ (fun y hy => mem_beq_false _ y (hpre y hy))
        (by simp [hx])
    simp [updatePassword, hs, h1]

/-- Witness for C8: updating mobile 7's password to "hunter2" changes only
`createpassword` and stores it verbatim. -/
theorem claim_C8_witness :
    updatePassword demoStore 7 "hunter2" =
      (SimpleResp.ok,
        { demoStore with members :=
            [] ++ { mobile := demoMember.mobile, email := demoMember.email,
                    occupation := demoMember.occupation, createpassword := "hunter2" } :: [] }) :=
  claim_C8_password_field_only.2 demoStore [] [] demoMember 7 "hunter2" rfl
    (by intro y hy; exact absurd hy (List.not_mem_nil y)) rfl

/-- C4 counterexample: amount 0 is present in the body yet JS-falsy, so even
with an enquiry stored for the mobile the handler answers InvalidInput, not
success — refuting "for every request with both amount and mobile present,
requestRemittance succeeds iff an enquiry exists". -/
theorem claim_C4_counterexample :
    (∃ r ∈ demoStore.requests, r.mobile = 7) ∧
    (requestRemittance demoStore "personal" { amt := some 0, mobile := some 7 }).1 =
      RemitResp.invalidInput := by
  constructor
  · exact ⟨demoEnquiry, by simp [demoStore], rfl⟩
  · simp [requestRemittance]

/-- C4 (amended): for every request whose amount and mobile are present and
non-zero (JS-truthy), `requestRemittance` succeeds iff at least one enquiry
exists for that mobile — regardless of any approval state or of the stored
enquiry amount; a missing or zero argument yields InvalidInput, and a truthy
pair with no matching enquiry yields NotFound. -/
theorem claim_C4_remittance_gate :
    (∀ (s : Store) (t : String) (b : RemitBody) (a : ℚ) (m : Nat),
      b.amt = some a → b.mobile = some m → a ≠ 0 → m ≠ 0 →
      (((requestRemittance s t b).1).success = true ↔ ∃ r ∈ s.requests, r.mobile = m)) ∧
    (∀ (s : Store) (t : String) (b : RemitBody),
      (b.amt = none ∨ b.amt = some 0 ∨ b.mobile = none ∨ b.mobile = some 0) →
      (requestRemittance s t b).1 = RemitResp.invalidInput) ∧
    (∀ (s : Store) (t : String) (b : RemitBody) (a : ℚ) (m : Nat),
      b.amt = some a → b.mobile = some m → a ≠ 0 → m ≠ 0 →
      (∀ r ∈ s.requests, r.mobile ≠ m) →
      (requestRemittance s t b).1 = RemitResp.notFound) := by
  refine ⟨?_, ?_, ?_⟩
  · intro s t b a m ha hm ha0 hm0
    rcases hf : findOneRequest s m with _ | r
    · have hnone : ∀ r ∈ s.requests, r.mobile ≠ m := by
        rw [findOneRequest, List.find?_eq_none] at hf
        intro r hr
        simpa using hf r hr
      simp [requestRemittance, ha, hm, ha0, hm0, hf, RemitResp.success]
      intro r hr
      exact hnone r hr
    · have hmem : r ∈ s.requests := List.mem_of_find?_eq_some hf
      have hrm : r.mobile = m := by
        have := List.find?_some hf
        simpa using this
      simp [requestRemittance, ha, hm, ha0, hm0, hf, RemitResp.success]
      exact ⟨r, hmem, hrm⟩
  · intro s t b hb
    rcases hba : b.amt with _ | a
    · rcases hbm : b.mobile with _ | m <;> simp [requestRemittance, hba, hbm]
    · rcases hbm : b.mobile with _ | m
      · simp [requestRemittance, hba, hbm]
      · have hzero : a = 0 ∨ m = 0 := by
          rcases hb with h | h | h | h <;> simp_all
        simp [requestRemittance, hba, hbm, hzero]
  · intro s t b a m ha hm ha0 hm0 h
    have hf : findOneRequest s m = none := by
      rw [findOneRequest, List.find?_eq_none]
      intro r hr
      simp [h r hr]
    simp [requestRemittance, ha, hm, ha0, hm0, hf]

/-- Witness for C4 (amended) at the one-enquiry store: truthy amount and
mobile, and the success-iff-enquiry equivalence instantiated there. -/
theorem claim_C4_witness :
    (1000 : ℚ) ≠ 0 ∧ (7 : Nat) ≠ 0 ∧
    (((requestRemittance demoStore "personal"
        { amt := some 1000, mobile := some 7 }).1).success = true ↔
      ∃ r ∈ demoStore.requests, r.mobile = 7) :=
  ⟨by norm_num, by norm_num,
    claim_C4_remittance_gate.1 demoStore "personal"
      { amt := some 1000, mobile := some 7 } 1000 7 rfl rfl (by norm_num) (by norm_num)⟩

/-- C10: a successful `updateEnquiry` always returns a record whose `mobile`
equals the mobile the lookup filtered on — both the filter and the update draw
it from the same request body, so the endpoint cannot re-key a record away
from the mobile it was looked up by. -/
theorem claim_C10_update_preserves_lookup_mobile (s : Store) (b : RequestPatch)
    (r : LoanRequest) (s2 : Store)
    (h : updateEnquiry s b = (UpdateReqResp.ok r, s2)) : r.mobile = b.mobile := by
  rw [updateEnquiry] at h
  revert h
  cases hu : updateFirst (fun x => x.mobile == b.mobile) (applyPatch b) s.requests with
  | none =>
    intro h
    exact absurd (congrArg Prod.fst h) (by simp)
  | some yl =>
    obtain ⟨y, ys⟩ := yl
    intro h
    obtain ⟨x, hpx, hyx⟩ :=
      updateFirst_shape (fun x => x.mobile == b.mobile) (applyPatch b) s.requests y ys hu
    have hyr : y = r := by
      have h1 := congrArg Prod.fst h
      simpa using h1
    rw [← hyr, hyx]
    simp [applyPatch]

/-- A patch for mobile 7 changing the amount, used by the C10 witness. -/
def c10Patch : RequestPatch :=
  { mobile := 7, email := none, amt := some 2500, type := none, msg := none, code := none }

/-- The post-update record of the C10 witness. -/
def c10Updated : LoanRequest :=
  { mobile := 7, email := "a@b.com", amt := 2500, type := "personal"
    msg := "hello", code := "Z" }

/-- Witness for C10: the concrete update at the one-enquiry store. -/
theorem claim_C10_witness : c10Updated.mobile = c10Patch.mobile :=
  claim_C10_update_preserves_lookup_mobile demoStore c10Patch c10Updated
    { demoStore with requests := [c10Updated] }
    (by norm_num [updateEnquiry, updateFirst, applyPatch, demoStore, demoEnquiry,
      c10Patch, c10Updated])
